import Mathlib

/-!
Shallow embedding of the gRPC authorization matchers
(`src/core/lib/security/authorization/matchers.cc`).

`StringMatcher` and `HeaderMatcher` are modelled as Lean structures whose
fields mirror the C++ data members; `Create`, `Match`, `ToString` and
`operator==` (here `equals`) are translated function by function.  The
abseil string helpers (`EqualsIgnoreCase`, `StartsWith`, `StrContains`,
`AsciiStrToLower`, `SimpleAtoi`) and RE2 are external libraries: they are
modelled from their documented behaviour, with each model's doc comment
naming its origin.  Strings are treated as lists of characters; for valid
UTF-8 data the byte-level operations of abseil coincide with these
character-level ones (UTF-8 is self-synchronising and ASCII case folding
only touches single-byte characters).
-/

namespace Matchers

/-- Kinds of `StringMatcher` (enum `StringMatcher::Type` in matchers.h,
declaration order EXACT, PREFIX, SUFFIX, SAFE_REGEX, CONTAINS). -/
inductive StringMatcherType where
  | EXACT
  | PREFIX
  | SUFFIX
  | SAFE_REGEX
  | CONTAINS
deriving DecidableEq

/-- Kinds of `HeaderMatcher` (enum `HeaderMatcher::Type`): the five shared
kinds in the same order, then RANGE and PRESENT. -/
inductive HeaderMatcherType where
  | EXACT
  | PREFIX
  | SUFFIX
  | SAFE_REGEX
  | CONTAINS
  | RANGE
  | PRESENT
deriving DecidableEq

/-- The test `static_cast<int>(type) < 5` from `HeaderMatcher::Create`:
true exactly for EXACT, PREFIX, SUFFIX, SAFE_REGEX and CONTAINS. -/
def HeaderMatcherType.isShared : HeaderMatcherType → Bool
  | .EXACT => true
  | .PREFIX => true
  | .SUFFIX => true
  | .SAFE_REGEX => true
  | .CONTAINS => true
  | .RANGE => false
  | .PRESENT => false

/-- The cast `static_cast<StringMatcher::Type>(type)`, meaningful only for
the five shared kinds (same enum index on both sides). -/
def HeaderMatcherType.toStringMatcherType : HeaderMatcherType → StringMatcherType
  | .EXACT => .EXACT
  | .PREFIX => .PREFIX
  | .SUFFIX => .SUFFIX
  | .SAFE_REGEX => .SAFE_REGEX
  | _ => .CONTAINS

/-- Model of `absl::ascii_tolower`: fold only the ASCII letters A-Z. -/
def asciiToLower (c : Char) : Char :=
  if 'A' ≤ c ∧ c ≤ 'Z' then Char.ofNat (c.toNat + 32) else c

/-- Model of `absl::ascii_toupper`: fold only the ASCII letters a-z. -/
def asciiToUpper (c : Char) : Char :=
  if 'a' ≤ c ∧ c ≤ 'z' then Char.ofNat (c.toNat - 32) else c

/-- Model of `absl::AsciiStrToLower`, applied characterwise. -/
def lowerList (s : List Char) : List Char :=
  s.map asciiToLower

/-- Model of `absl::EqualsIgnoreCase`: equal length and characterwise
ASCII-case-insensitive equality, i.e. equality after ASCII folding. -/
def equalsIgnoreCase (a b : List Char) : Bool :=
  lowerList a == lowerList b

/-- Model of `absl::StartsWith text pat`: `pat` is a prefix of `text`. -/
def startsWithList : List Char → List Char → Bool
  | _, [] => true
  | [], _ :: _ => false
  | t :: ts, p :: ps => t == p && startsWithList ts ps

/-- Model of `absl::EndsWith text pat`: `pat` is a suffix of `text`. -/
def endsWithList (text pat : List Char) : Bool :=
  startsWithList text.reverse pat.reverse

/-- Model of `absl::StrContains text pat`: `pat` occurs contiguously in
`text` (the empty pattern always occurs). -/
def containsList : List Char → List Char → Bool
  | [], p => startsWithList [] p
  | c :: ts, p => startsWithList (c :: ts) p || containsList ts p

/-- Model of a compiled RE2 object: the source pattern text (RE2's
`pattern()` accessor), the case-sensitivity option it was compiled with,
and the compiled regular expression. -/
structure RE2 where
  pattern : String
  case_sensitive : Bool
  compiled : RegularExpression Char

instance : Inhabited RE2 :=
  ⟨⟨"", true, RegularExpression.zero⟩⟩

/-- Characters accepted as literal atoms by the modelled RE2 fragment. -/
def isRegexLiteralChar (c : Char) : Bool :=
  ('a' ≤ c && c ≤ 'z') || ('A' ≤ c && c ≤ 'Z') || ('0' ≤ c && c ≤ '9')

/-- A literal-character atom; when compiled case-insensitively it accepts
both ASCII case variants of the character. -/
def regexAtomChar (cs : Bool) (c : Char) : RegularExpression Char :=
  if cs then RegularExpression.char c
  else RegularExpression.plus (RegularExpression.char (asciiToLower c))
    (RegularExpression.char (asciiToUpper c))

/-- Worker for `compileRegex`: scans the pattern left to right keeping the
already-compiled atoms in reverse order.  The Boolean records whether a
quantifier may be applied (RE2 rejects a quantifier with no argument and a
doubled quantifier such as in `a**`). -/
def compileRegexLoop (cs : Bool) :
    List Char → List (RegularExpression Char) → Bool →
    Option (List (RegularExpression Char))
  | [], acc, _ => some acc
  | c :: rest, acc, canQuant =>
    if c = '+' then
      match acc, canQuant with
      | a :: as, true =>
        compileRegexLoop cs rest (RegularExpression.comp a (RegularExpression.star a) :: as) false
      | _, _ => none
    else if c = '*' then
      match acc, canQuant with
      | a :: as, true => compileRegexLoop cs rest (RegularExpression.star a :: as) false
      | _, _ => none
    else if isRegexLiteralChar c then
      compileRegexLoop cs rest (regexAtomChar cs c :: acc) true
    else none

/-- Model of RE2 compilation (`RE2(pattern, options)` followed by the
`ok()` check), restricted to the fragment exercised here: literal
alphanumeric characters and the postfix quantifiers `+` (one or more) and
`*` (zero or more).  Any other construct, and any misplaced quantifier —
both invalid in RE2 or outside the modelled fragment — yields `none`
(compilation failure). -/
def compileRegex (cs : Bool) (pat : String) : Option (RegularExpression Char) :=
  (compileRegexLoop cs pat.data [] false).map
    (fun atoms => atoms.foldl (fun acc a => RegularExpression.comp a acc) RegularExpression.epsilon)

/-- Model of `RE2::FullMatch(text, re)`: the entire text must match the
compiled expression (anchored at both ends). -/
def RE2.FullMatch (re : RE2) (value : String) : Bool :=
  re.compiled.rmatch value.data

/-- The `StringMatcher` class: kind, literal pattern (used by the four
literal kinds), compiled regex (used by SAFE_REGEX) and the
case-sensitivity flag. -/
structure StringMatcher where
  type_ : StringMatcherType
  string_matcher_ : String
  regex_matcher_ : RE2
  case_sensitive_ : Bool

instance : Inhabited StringMatcher :=
  ⟨⟨.EXACT, "", default, true⟩⟩

/-- `StringMatcher::Create`: SAFE_REGEX compiles the pattern (with the
case-sensitivity option fixed at compile time) and fails with an invalid
argument error if it does not compile; every other kind stores the pattern
verbatim. -/
def StringMatcher.Create (type : StringMatcherType) (matcher : String)
    (case_sensitive : Bool) : Except String StringMatcher :=
  if type = .SAFE_REGEX then
    match compileRegex case_sensitive matcher with
    | none => .error "Invalid regex string specified in matcher."
    | some r => .ok ⟨.SAFE_REGEX, "", ⟨matcher, case_sensitive, r⟩, case_sensitive⟩
  else
    .ok ⟨type, matcher, default, case_sensitive⟩

/-- `StringMatcher::Match`.  The case-insensitive branches use the abseil
IgnoreCase helpers, all equivalent to folding both operands with
`absl::ascii_tolower` first. -/
def StringMatcher.Match (sm : StringMatcher) (value : String) : Bool :=
  match sm.type_ with
  | .EXACT =>
    if sm.case_sensitive_ then value == sm.string_matcher_
    else equalsIgnoreCase value.data sm.string_matcher_.data
  | .PREFIX =>
    if sm.case_sensitive_ then startsWithList value.data sm.string_matcher_.data
    else startsWithList (lowerList value.data) (lowerList sm.string_matcher_.data)
  | .SUFFIX =>
    if sm.case_sensitive_ then endsWithList value.data sm.string_matcher_.data
    else endsWithList (lowerList value.data) (lowerList sm.string_matcher_.data)
  | .CONTAINS =>
    if sm.case_sensitive_ then containsList value.data sm.string_matcher_.data
    else containsList (lowerList value.data) (lowerList sm.string_matcher_.data)
  | .SAFE_REGEX => sm.regex_matcher_.FullMatch value

/-- `StringMatcher::operator==`: structural over kind and flag, comparing
the regex payload by source-pattern text. -/
def StringMatcher.equals (a b : StringMatcher) : Bool :=
  if a.type_ ≠ b.type_ ∨ a.case_sensitive_ ≠ b.case_sensitive_ then false
  else if a.type_ = .SAFE_REGEX then a.regex_matcher_.pattern == b.regex_matcher_.pattern
  else a.string_matcher_ == b.string_matcher_

/-- `StringMatcher::ToString`. -/
def StringMatcher.ToString (sm : StringMatcher) : String :=
  let cs := if sm.case_sensitive_ then "" else ", case_sensitive=false"
  match sm.type_ with
  | .EXACT => "StringMatcher\x7bexact=" ++ sm.string_matcher_ ++ cs ++ "\x7d"
  | .PREFIX => "StringMatcher\x7bprefix=" ++ sm.string_matcher_ ++ cs ++ "\x7d"
  | .SUFFIX => "StringMatcher\x7bsuffix=" ++ sm.string_matcher_ ++ cs ++ "\x7d"
  | .CONTAINS => "StringMatcher\x7bcontains=" ++ sm.string_matcher_ ++ cs ++ "\x7d"
  | .SAFE_REGEX => "StringMatcher\x7bsafe_regex=" ++ sm.regex_matcher_.pattern ++ cs ++ "\x7d"

/-- Model of `absl::ascii_isspace`: space, tab, newline, vertical tab,
form feed, carriage return. -/
def asciiIsSpace (c : Char) : Bool :=
  c == ' ' || c == '\t' || c == '\n' || c == '\x0b' || c == '\x0c' || c == '\r'

/-- Leading and trailing ASCII whitespace removal, as performed by
abseil's `safe_parse_sign_and_base` before parsing an integer. -/
def trimAsciiSpace (s : List Char) : List Char :=
  ((s.dropWhile asciiIsSpace).reverse.dropWhile asciiIsSpace).reverse

/-- Numeric value of an ASCII decimal digit, `none` otherwise. -/
def digitVal (c : Char) : Option Nat :=
  if '0' ≤ c ∧ c ≤ '9' then some (c.toNat - 48) else none

/-- Accumulating base-10 evaluation; fails on the first non-digit. -/
def digitsToNat : Nat → List Char → Option Nat
  | acc, [] => some acc
  | acc, c :: rest =>
    match digitVal c with
    | some d => digitsToNat (acc * 10 + d) rest
    | none => none

/-- Value of a non-empty all-digit list; `none` if empty or any non-digit. -/
def parseDigits (s : List Char) : Option Nat :=
  match s with
  | [] => none
  | c :: rest => digitsToNat 0 (c :: rest)

def int64Min : Int := -(2 ^ 63)

def int64Max : Int := 2 ^ 63 - 1

/-- Splitting of an optional leading sign: the Boolean is true for a
leading minus; a leading plus is consumed without negating. -/
def splitSign : List Char → Bool × List Char
  | [] => (false, [])
  | c :: rest =>
    if c = '-' then (true, rest)
    else if c = '+' then (false, rest)
    else (false, c :: rest)

/-- Digit-and-bounds step of the signed parse: one or more decimal digits
whose (possibly negated) value must be in signed 64-bit range. -/
def parseSignedBody (neg : Bool) (body : List Char) : Option Int :=
  match parseDigits body with
  | none => none
  | some n =>
    let v : Int := if neg then -(n : Int) else (n : Int)
    if int64Min ≤ v ∧ v ≤ int64Max then some v else none

/-- Signed base-10 evaluation of a whole character list: an optional sign
followed by one or more decimal digits, with the value required to be in
signed 64-bit range. -/
def parseSignedDec (t : List Char) : Option Int :=
  parseSignedBody (splitSign t).1 (splitSign t).2

/-- Model of `absl::SimpleAtoi<int64_t>` (documented as converting the
given string, optionally preceded or followed by ASCII whitespace, as a
base-10 integer): trim ASCII whitespace from both ends, then an optional
sign followed by one or more decimal digits must account for the entire
remainder, and the value must fit in a signed 64-bit integer; otherwise
the conversion fails. -/
def simpleAtoi (s : String) : Option Int :=
  parseSignedDec (trimAsciiSpace s.data)

/-- Modelled from the spec: the parse described by the specification for
Range matching — the *entire* value string, with no whitespace tolerance,
must be an optional sign followed by decimal digits in signed 64-bit
range.  Used only to compare the claimed semantics with the code's
(`simpleAtoi`) semantics. -/
def claimedStrictParse (s : String) : Option Int :=
  parseSignedDec s.data

/-- Base-10 value of a digit list (most significant first). -/
def decimalValue (ds : List Char) : Nat :=
  ds.foldl (fun a c => a * 10 + (c.toNat - 48)) 0

/-- The list is non-empty and consists only of ASCII decimal digits. -/
def allDigits (ds : List Char) : Prop :=
  ds ≠ [] ∧ ∀ c ∈ ds, '0' ≤ c ∧ c ≤ '9'

/-- Declarative description of signed decimal notation over a character
list: an optional sign followed by one or more decimal digits denoting
`i`, with `i` in signed 64-bit range. -/
def sdNotation (t : List Char) (i : Int) : Prop :=
  int64Min ≤ i ∧ i ≤ int64Max ∧
  ((allDigits t ∧ i = decimalValue t) ∨
   (∃ ds, t = '+' :: ds ∧ allDigits ds ∧ i = decimalValue ds) ∨
   (∃ ds, t = '-' :: ds ∧ allDigits ds ∧ i = -(decimalValue ds : Int)))

/-- Declarative description of the strings accepted by the modelled
`SimpleAtoi`: after trimming ASCII whitespace from both ends, the
remainder denotes `i` in signed decimal notation. -/
def signedDecimalRep (v : String) (i : Int) : Prop :=
  sdNotation (trimAsciiSpace v.data) i

/-- The `HeaderMatcher` class.  The C++ object holds only the payload
members selected by `type_` (the others are default-initialised); here all
fields are always present and the operations read only the ones selected
by `type_`, exactly as the source does. -/
structure HeaderMatcher where
  name_ : String
  type_ : HeaderMatcherType
  matcher_ : StringMatcher
  range_start_ : Int
  range_end_ : Int
  present_match_ : Bool
  invert_match_ : Bool

/-- `HeaderMatcher::Create`: the five shared kinds delegate to
`StringMatcher::Create` with `case_sensitive = true` and propagate its
error; RANGE validates `range_start <= range_end`; PRESENT stores the
flag unconditionally. -/
def HeaderMatcher.Create (name : String) (type : HeaderMatcherType)
    (matcher : String) (range_start range_end : Int)
    (present_match invert_match : Bool) : Except String HeaderMatcher :=
  if type.isShared then
    match StringMatcher.Create type.toStringMatcherType matcher true with
    | .error e => .error e
    | .ok sm => .ok ⟨name, type, sm, 0, 0, false, invert_match⟩
  else if type = .RANGE then
    if range_start > range_end then
      .error "Invalid range specifier specified: end cannot be smaller than start."
    else
      .ok ⟨name, .RANGE, default, range_start, range_end, false, invert_match⟩
  else
    .ok ⟨name, .PRESENT, default, 0, 0, present_match, invert_match⟩

/-- The local variable `match` of `HeaderMatcher::Match`, before the
inversion step: PRESENT compares presence with `present_match_`; any other
kind is false on an absent value; RANGE parses with `SimpleAtoi` and tests
the closed-open interval; the shared kinds delegate to the embedded
`StringMatcher`. -/
def HeaderMatcher.MatchBase (hm : HeaderMatcher) (value : Option String) : Bool :=
  if hm.type_ = .PRESENT then value.isSome == hm.present_match_
  else
    match value with
    | none => false
    | some v =>
      if hm.type_ = .RANGE then
        match simpleAtoi v with
        | some i => decide (i ≥ hm.range_start_) && decide (i < hm.range_end_)
        | none => false
      else
        hm.matcher_.Match v

/-- `HeaderMatcher::Match`: the base result XOR `invert_match_`
(`return match != invert_match_`). -/
def HeaderMatcher.Match (hm : HeaderMatcher) (value : Option String) : Bool :=
  hm.MatchBase value != hm.invert_match_

/-- `HeaderMatcher::operator==`: name, kind and invert flag, then the
payload selected by the kind. -/
def HeaderMatcher.equals (a b : HeaderMatcher) : Bool :=
  if a.name_ ≠ b.name_ then false
  else if a.type_ ≠ b.type_ then false
  else if a.invert_match_ ≠ b.invert_match_ then false
  else
    match a.type_ with
    | .RANGE => a.range_start_ == b.range_start_ && a.range_end_ == b.range_end_
    | .PRESENT => a.present_match_ == b.present_match_
    | _ => a.matcher_.equals b.matcher_

/-- `HeaderMatcher::ToString`.  Note the RANGE arm of the source prints
`range=[%d, %d]` — a closing square bracket. -/
def HeaderMatcher.ToString (hm : HeaderMatcher) : String :=
  let notStr := if hm.invert_match_ then "not " else ""
  match hm.type_ with
  | .RANGE =>
    "HeaderMatcher\x7b" ++ hm.name_ ++ " " ++ notStr ++ "range=[" ++
      toString hm.range_start_ ++ ", " ++ toString hm.range_end_ ++ "]\x7d"
  | .PRESENT =>
    "HeaderMatcher\x7b" ++ hm.name_ ++ " " ++ notStr ++ "present=" ++
      (if hm.present_match_ then "true" else "false") ++ "\x7d"
  | _ =>
    "HeaderMatcher\x7b" ++ hm.name_ ++ " " ++ notStr ++ hm.matcher_.ToString ++ "\x7d"

/-- The compiled form of the pattern "a+b" in the RE2 model (one or more
of the character a, then the character b). -/
def aPlusB : RegularExpression Char :=
  RegularExpression.comp
    (RegularExpression.comp (RegularExpression.char 'a')
      (RegularExpression.star (RegularExpression.char 'a')))
    (RegularExpression.comp (RegularExpression.char 'b') RegularExpression.epsilon)

/-- Correctness of the accumulating digit evaluation. -/
theorem digitsToNat_eq_some (ds : List Char) :
    ∀ acc n, digitsToNat acc ds = some n ↔
      ((∀ c ∈ ds, '0' ≤ c ∧ c ≤ '9') ∧
       n = ds.foldl (fun a c => a * 10 + (c.toNat - 48)) acc) := by
  induction ds with
  | nil =>
    intro acc n
    simp [digitsToNat, eq_comm]
  | cons c rest ih =>
    intro acc n
    by_cases hc : '0' ≤ c ∧ c ≤ '9'
    · simp [digitsToNat, digitVal, hc, ih, and_assoc]
    · simp only [digitsToNat, digitVal, if_neg hc]
      constructor
      · intro h
        exact absurd h (by simp)
      · rintro ⟨h, -⟩
        exact absurd (h c (List.mem_cons_self c rest)) hc

/-- Correctness of `parseDigits` with respect to the declarative digit
predicate and value. -/
theorem parseDigits_eq_some (ds : List Char) (n : Nat) :
    parseDigits ds = some n ↔ allDigits ds ∧ n = decimalValue ds := by
  cases ds with
  | nil => simp [parseDigits, allDigits]
  | cons c rest =>
    simp [parseDigits, digitsToNat_eq_some, allDigits, decimalValue]

/-- Correctness of the digit-and-bounds step. -/
theorem parseSignedBody_eq_some (neg : Bool) (body : List Char) (i : Int) :
    parseSignedBody neg body = some i ↔
      (allDigits body ∧
       i = (if neg then -(decimalValue body : Int) else (decimalValue body : Int)) ∧
       int64Min ≤ i ∧ i ≤ int64Max) := by
  unfold parseSignedBody
  cases hp : parseDigits body with
  | none =>
    simp only [hp]
    constructor
    · intro h; exact absurd h (by simp)
    · rintro ⟨hd, -, -⟩
      have h2 := (parseDigits_eq_some body (decimalValue body)).mpr ⟨hd, rfl⟩
      rw [hp] at h2
      exact absurd h2 (by simp)
  | some n =>
    obtain ⟨hd, hv⟩ := (parseDigits_eq_some body n).mp hp
    subst hv
    simp only [hp]
    by_cases hb : int64Min ≤ (if neg then -(decimalValue body : Int) else (decimalValue body : Int)) ∧
        (if neg then -(decimalValue body : Int) else (decimalValue body : Int)) ≤ int64Max
    · constructor
      · intro h
        rw [if_pos hb] at h
        injection h with h
        subst h
        exact ⟨hd, rfl, hb.1, hb.2⟩
      · rintro ⟨-, hi, h1, h2⟩
        subst hi
        rw [if_pos hb]
    · constructor
      · intro h
        rw [if_neg hb] at h
        exact absurd h (by simp)
      · rintro ⟨-, hi, h1, h2⟩
        subst hi
        exact absurd ⟨h1, h2⟩ hb

theorem parseSignedBody_neg (body : List Char) (i : Int) :
    parseSignedBody true body = some i ↔
      allDigits body ∧ i = -(decimalValue body : Int) ∧ int64Min ≤ i ∧ i ≤ int64Max := by
  rw [parseSignedBody_eq_some]
  simp

theorem parseSignedBody_pos (body : List Char) (i : Int) :
    parseSignedBody false body = some i ↔
      allDigits body ∧ i = (decimalValue body : Int) ∧ int64Min ≤ i ∧ i ≤ int64Max := by
  rw [parseSignedBody_eq_some]
  simp

theorem minus_not_digit : ¬ (('0' : Char) ≤ '-' ∧ ('-' : Char) ≤ '9') := by decide

theorem plus_not_digit : ¬ (('0' : Char) ≤ '+' ∧ ('+' : Char) ≤ '9') := by decide

/-- Correctness of the signed whole-list parse with respect to the
declarative signed decimal notation. -/
theorem parseSignedDec_eq_some (t : List Char) (i : Int) :
    parseSignedDec t = some i ↔ sdNotation t i := by
  unfold parseSignedDec
  cases t with
  | nil =>
    simp [splitSign, parseSignedBody, parseDigits, sdNotation, allDigits]
  | cons c rest =>
    by_cases hminus : c = '-'
    · subst hminus
      show parseSignedBody true rest = some i ↔ sdNotation ('-' :: rest) i
      rw [parseSignedBody_neg]
      unfold sdNotation allDigits
      constructor
      · rintro ⟨⟨hne, hall⟩, hi, h1, h2⟩
        exact ⟨h1, h2, Or.inr (Or.inr ⟨rest, rfl, ⟨hne, hall⟩, hi⟩)⟩
      · rintro ⟨h1, h2, h | h | h⟩
        · obtain ⟨⟨-, hall⟩, -⟩ := h
          exact absurd (hall '-' (List.mem_cons_self _ _)) minus_not_digit
        · obtain ⟨ds, hds, -, -⟩ := h
          injection hds with hbad
          exact absurd hbad (by decide)
        · obtain ⟨ds, hds, hall, hi⟩ := h
          injection hds with hhd hds
          subst hds
          exact ⟨hall, hi, h1, h2⟩
    · by_cases hplus : c = '+'
      · subst hplus
        show parseSignedBody false rest = some i ↔ sdNotation ('+' :: rest) i
        rw [parseSignedBody_pos]
        unfold sdNotation allDigits
        constructor
        · rintro ⟨⟨hne, hall⟩, hi, h1, h2⟩
          exact ⟨h1, h2, Or.inr (Or.inl ⟨rest, rfl, ⟨hne, hall⟩, hi⟩)⟩
        · rintro ⟨h1, h2, h | h | h⟩
          · obtain ⟨⟨-, hall⟩, -⟩ := h
            exact absurd (hall '+' (List.mem_cons_self _ _)) plus_not_digit
          · obtain ⟨ds, hds, hall, hi⟩ := h
            injection hds with hhd hds
            subst hds
            exact ⟨hall, hi, h1, h2⟩
          · obtain ⟨ds, hds, -, -⟩ := h
            injection hds with hbad
            exact absurd hbad (by decide)
      · have hs : splitSign (c :: rest) = (false, c :: rest) := by
          simp [splitSign, hminus, hplus]
        rw [hs]
        show parseSignedBody false (c :: rest) = some i ↔ sdNotation (c :: rest) i
        rw [parseSignedBody_pos]
        unfold sdNotation allDigits
        constructor
        · rintro ⟨⟨hne, hall⟩, hi, h1, h2⟩
          exact ⟨h1, h2, Or.inl ⟨⟨hne, hall⟩, hi⟩⟩
        · rintro ⟨h1, h2, h | h | h⟩
          · obtain ⟨hd, hi⟩ := h
            exact ⟨hd, hi, h1, h2⟩
          · obtain ⟨ds, hds, -, -⟩ := h
            injection hds with hbad
            exact absurd hbad hplus
          · obtain ⟨ds, hds, -, -⟩ := h
            injection hds with hbad
            exact absurd hbad hminus

/-- Correctness of the modelled `SimpleAtoi` with respect to the
declarative description. -/
theorem simpleAtoi_eq_some (v : String) (i : Int) :
    simpleAtoi v = some i ↔ signedDecimalRep v i := by
  unfold simpleAtoi signedDecimalRep
  exact parseSignedDec_eq_some _ i

/-- Unfolding of `StringMatcher::operator==` into field equations. -/
theorem smEquals_iff (a b : StringMatcher) :
    a.equals b = true ↔
      a.type_ = b.type_ ∧ a.case_sensitive_ = b.case_sensitive_ ∧
      (if a.type_ = StringMatcherType.SAFE_REGEX
       then a.regex_matcher_.pattern = b.regex_matcher_.pattern
       else a.string_matcher_ = b.string_matcher_) := by
  unfold StringMatcher.equals
  by_cases h1 : a.type_ = b.type_ <;> by_cases h2 : a.case_sensitive_ = b.case_sensitive_ <;>
    by_cases h3 : a.type_ = StringMatcherType.SAFE_REGEX <;>
    simp [h1, h2, h3]

/-- Matchers equal under `operator==` print identically. -/
theorem smEquals_toString {a b : StringMatcher} (h : a.equals b = true) :
    a.ToString = b.ToString := by
  rw [smEquals_iff] at h
  obtain ⟨ht, hc, hp⟩ := h
  unfold StringMatcher.ToString
  rw [← ht, ← hc]
  clear ht hc
  by_cases hA : a.type_ = StringMatcherType.SAFE_REGEX
  · rw [if_pos hA] at hp
    simp only [hA]
    rw [hp]
  · rw [if_neg hA] at hp
    cases hB : a.type_
    all_goals first
      | exact absurd hB hA
      | simp only [hp]

/-- Reflexivity of `StringMatcher::operator==`. -/
theorem smEquals_refl (a : StringMatcher) : a.equals a = true := by
  unfold StringMatcher.equals
  simp

/-- Unfolding of `HeaderMatcher::operator==` into field equations. -/
theorem hmEquals_iff (a b : HeaderMatcher) :
    a.equals b = true ↔
      a.name_ = b.name_ ∧ a.type_ = b.type_ ∧ a.invert_match_ = b.invert_match_ ∧
      (match a.type_ with
       | .RANGE => a.range_start_ = b.range_start_ ∧ a.range_end_ = b.range_end_
       | .PRESENT => a.present_match_ = b.present_match_
       | _ => a.matcher_.equals b.matcher_ = true) := by
  unfold HeaderMatcher.equals
  by_cases h1 : a.name_ = b.name_ <;> by_cases h2 : a.type_ = b.type_ <;>
    by_cases h3 : a.invert_match_ = b.invert_match_ <;>
    simp [h1, h2, h3]
  cases hb : b.type_ <;> simp

/-- Header matchers equal under `operator==` print identically. -/
theorem hmEquals_toString {a b : HeaderMatcher} (h : a.equals b = true) :
    a.ToString = b.ToString := by
  rw [hmEquals_iff] at h
  obtain ⟨hn, ht, hi, hp⟩ := h
  unfold HeaderMatcher.ToString
  rw [← hn, ← ht, ← hi]
  cases hA : a.type_ <;> rw [hA] at hp
  case RANGE => rw [hp.1, hp.2]
  case PRESENT => rw [hp]
  all_goals rw [smEquals_toString hp]

/-- Reflexivity of `HeaderMatcher::operator==`. -/
theorem hmEquals_refl (a : HeaderMatcher) : a.equals a = true := by
  unfold HeaderMatcher.equals
  simp
  cases a.type_ <;> simp [smEquals_refl]

/-- A successfully constructed `StringMatcher` carries the requested
case-sensitivity flag. -/
theorem StringMatcher.create_caseSensitive {t : StringMatcherType} {p : String}
    {cs : Bool} {sm : StringMatcher} (h : StringMatcher.Create t p cs = .ok sm) :
    sm.case_sensitive_ = cs := by
  unfold Create at h
  by_cases ht : t = StringMatcherType.SAFE_REGEX
  · rw [if_pos ht] at h
    cases hc : compileRegex cs p <;> rw [hc] at h
    · cases h
    · injection h with h
      subst h
      rfl
  · rw [if_neg ht] at h
    injection h with h
    subst h
    rfl

theorem startsWithList_nil (t : List Char) : startsWithList t [] = true := by
  cases t <;> rfl

theorem endsWithList_nil (t : List Char) : endsWithList t [] = true := by
  unfold endsWithList
  exact startsWithList_nil _

theorem containsList_nil (t : List Char) : containsList t [] = true := by
  cases t with
  | nil => rfl
  | cons c ts => simp [containsList, startsWithList_nil]

/-- C1: For every HeaderMatcher whose kind is not Present, Match with an
absent value has base result false, and the overall result is base XOR
invert_match: with invert_match = true, Match(absent) returns true, and
with invert_match = false it returns false. -/
theorem headerMatch_absent_is_inverted (m : HeaderMatcher)
    (h : m.type_ ≠ HeaderMatcherType.PRESENT) :
    m.MatchBase none = false ∧ m.Match none = m.invert_match_ := by
  have hb : m.MatchBase none = false := by
    unfold HeaderMatcher.MatchBase
    rw [if_neg h]
  refine ⟨hb, ?_⟩
  unfold HeaderMatcher.Match
  rw [hb]
  cases m.invert_match_ <;> rfl

/-- Witness for C1 at a concrete inverted Exact matcher. -/
theorem headerMatch_absent_is_inverted_witness :
    (⟨"x", .EXACT, default, 0, 0, false, true⟩ : HeaderMatcher).MatchBase none = false ∧
    (⟨"x", .EXACT, default, 0, 0, false, true⟩ : HeaderMatcher).Match none = true :=
  headerMatch_absent_is_inverted ⟨"x", .EXACT, default, 0, 0, false, true⟩ (by decide)

/-- C4: Creating a Range matcher fails, with the error message saying the
end cannot be smaller than the start, exactly when range_start >
range_end; equal bounds are accepted and produce a matcher whose Match is
the inversion-adjusted false on every optional value. -/
theorem rangeCreate_validation (name matcher : String) (rs re : Int) (pm im : Bool) :
    ((∃ m, HeaderMatcher.Create name .RANGE matcher rs re pm im = .ok m) ↔ rs ≤ re) ∧
    (rs > re →
      HeaderMatcher.Create name .RANGE matcher rs re pm im =
        .error "Invalid range specifier specified: end cannot be smaller than start.") ∧
    (rs = re →
      ∀ m, HeaderMatcher.Create name .RANGE matcher rs re pm im = .ok m →
        ∀ v : Option String, m.Match v = im) := by
  have hC : HeaderMatcher.Create name .RANGE matcher rs re pm im =
      (if rs > re then
        .error "Invalid range specifier specified: end cannot be smaller than start."
      else .ok ⟨name, .RANGE, default, rs, re, false, im⟩) := rfl
  rw [hC]
  by_cases hre : rs > re
  · rw [if_pos hre]
    refine ⟨?_, fun _ => rfl, ?_⟩
    · constructor
      · rintro ⟨m, hm⟩
        cases hm
      · intro hle
        exact absurd hre (not_lt.mpr hle)
    · intro heq m hm
      cases hm
  · rw [if_neg hre]
    refine ⟨?_, fun hgt => absurd hgt hre, ?_⟩
    · constructor
      · intro _
        exact not_lt.mp hre
      · intro _
        exact ⟨_, rfl⟩
    · intro heq m hm v
      injection hm with hm
      subst hm
      subst heq
      have hb : HeaderMatcher.MatchBase ⟨name, .RANGE, default, rs, rs, false, im⟩ v = false := by
        cases v with
        | none => rfl
        | some s =>
          show (match simpleAtoi s with
                | some i => decide (i ≥ rs) && decide (i < rs)
                | none => false) = false
          cases hsa : simpleAtoi s with
          | none => rfl
          | some i =>
            by_cases hge : i ≥ rs
            · have hlt : ¬ i < rs := by omega
              simp [hlt]
            · simp [hge]
      show (HeaderMatcher.MatchBase ⟨name, .RANGE, default, rs, rs, false, im⟩ v != im) = im
      rw [hb]
      cases im <;> rfl

/-- Witness for C4 at equal bounds 10, 10 with inversion set. -/
theorem rangeCreate_validation_witness :
    ((∃ m, HeaderMatcher.Create "x" .RANGE "" 10 10 false true = .ok m) ↔ (10 : Int) ≤ 10) ∧
    ((10 : Int) > 10 →
      HeaderMatcher.Create "x" .RANGE "" 10 10 false true =
        .error "Invalid range specifier specified: end cannot be smaller than start.") ∧
    ((10 : Int) = 10 →
      ∀ m, HeaderMatcher.Create "x" .RANGE "" 10 10 false true = .ok m →
        ∀ v : Option String, m.Match v = true) :=
  rangeCreate_validation "x" "" 10 10 false true

/-- C10: A Prefix, Suffix, or Contains matcher built with the empty
pattern matches every value under either case-sensitivity flag. -/
theorem emptyPattern_matches_everything (k : StringMatcherType)
    (hk : k = StringMatcherType.PREFIX ∨ k = StringMatcherType.SUFFIX ∨
      k = StringMatcherType.CONTAINS)
    (cs : Bool) (sm : StringMatcher)
    (hc : StringMatcher.Create k "" cs = .ok sm) (v : String) :
    sm.Match v = true := by
  have hnr : ¬ k = StringMatcherType.SAFE_REGEX := by
    rcases hk with h | h | h <;> subst h <;> decide
  unfold StringMatcher.Create at hc
  rw [if_neg hnr] at hc
  injection hc with hc
  subst hc
  rcases hk with h | h | h <;> subst h <;> cases cs <;>
    first
      | exact startsWithList_nil _
      | exact endsWithList_nil _
      | exact containsList_nil _

/-- Witness for C10: a case-insensitive Contains matcher with empty
pattern accepts "xyz". -/
theorem emptyPattern_matches_everything_witness :
    StringMatcher.Match ⟨.CONTAINS, "", default, false⟩ "xyz" = true :=
  emptyPattern_matches_everything .CONTAINS (Or.inr (Or.inr rfl)) false
    ⟨.CONTAINS, "", default, false⟩ rfl "xyz"

/-- C9: Header matchers built with the same kind, pattern, range bounds,
present flag and invert flag but different names produce identical Match
results on every optional value. -/
theorem match_independent_of_name (n1 n2 : String) (t : HeaderMatcherType)
    (p : String) (rs re : Int) (pm im : Bool) (m1 m2 : HeaderMatcher)
    (h1 : HeaderMatcher.Create n1 t p rs re pm im = .ok m1)
    (h2 : HeaderMatcher.Create n2 t p rs re pm im = .ok m2)
    (v : Option String) : m1.Match v = m2.Match v := by
  unfold HeaderMatcher.Create at h1 h2
  by_cases hs : t.isShared
  · rw [if_pos hs] at h1 h2
    cases hsm : StringMatcher.Create t.toStringMatcherType p true with
    | error e =>
      rw [hsm] at h1
      cases h1
    | ok sm =>
      rw [hsm] at h1 h2
      injection h1 with h1
      injection h2 with h2
      subst h1
      subst h2
      rfl
  · rw [if_neg hs] at h1 h2
    by_cases ht : t = .RANGE
    · rw [if_pos ht] at h1 h2
      by_cases hr : rs > re
      · rw [if_pos hr] at h1
        cases h1
      · rw [if_neg hr] at h1 h2
        injection h1 with h1
        injection h2 with h2
        subst h1
        subst h2
        rfl
    · rw [if_neg ht] at h1 h2
      injection h1 with h1
      injection h2 with h2
      subst h1
      subst h2
      rfl

/-- Witness for C9 at two Present matchers named differently. -/
theorem match_independent_of_name_witness :
    HeaderMatcher.Match ⟨"a", .PRESENT, default, 0, 0, true, false⟩ (some "v") =
      HeaderMatcher.Match ⟨"b", .PRESENT, default, 0, 0, true, false⟩ (some "v") :=
  match_independent_of_name "a" "b" .PRESENT "" 0 0 true false _ _ rfl rfl (some "v")

/-- C5 counterexample: the canonical form of a concrete Range matcher
renders the payload as "range=[10, 20]" with a closing square bracket;
the half-open rendering "range=[10, 20)" claimed by the spec occurs
nowhere in the output. -/
theorem rangeToString_counterexample :
    ∃ m : HeaderMatcher,
      HeaderMatcher.Create "age" .RANGE "" 10 20 false true = .ok m ∧
      m.ToString = "HeaderMatcher\x7bage not range=[10, 20]\x7d" ∧
      containsList m.ToString.data "range=[10, 20)".data = false :=
  ⟨⟨"age", .RANGE, default, 10, 20, false, true⟩, rfl, rfl, by decide⟩

/-- C5 (amended): the canonical form of a Range matcher renders the
payload as "range=[start, end]" — with a closing square bracket although
the interval is half-open — embedded as "<name> [not ]<payload>" inside
the HeaderMatcher wrapper, with "not " present exactly when invert_match
is true. -/
theorem rangeToString_renders_brackets (name matcher : String) (rs re : Int)
    (pm im : Bool) (m : HeaderMatcher)
    (h : HeaderMatcher.Create name .RANGE matcher rs re pm im = .ok m) :
    m.ToString =
      "HeaderMatcher\x7b" ++ name ++ " " ++ (if im then "not " else "") ++
        "range=[" ++ toString rs ++ ", " ++ toString re ++ "]\x7d" := by
  have hC : HeaderMatcher.Create name .RANGE matcher rs re pm im =
      (if rs > re then
        .error "Invalid range specifier specified: end cannot be smaller than start."
      else .ok ⟨name, .RANGE, default, rs, re, false, im⟩) := rfl
  rw [hC] at h
  by_cases hre : rs > re
  · rw [if_pos hre] at h
    cases h
  · rw [if_neg hre] at h
    injection h with h
    subst h
    rfl

/-- Witness for C5 (amended) at a concrete inverted Range matcher. -/
theorem rangeToString_renders_brackets_witness :
    HeaderMatcher.ToString ⟨"age", .RANGE, default, 10, 20, false, true⟩ =
      "HeaderMatcher\x7b" ++ "age" ++ " " ++ (if true then "not " else "") ++
        "range=[" ++ toString (10 : Int) ++ ", " ++ toString (20 : Int) ++ "]\x7d" :=
  rangeToString_renders_brackets "age" "" 10 20 false true
    ⟨"age", .RANGE, default, 10, 20, false, true⟩ rfl

/-- C6: an Exact matcher with case_sensitive = true matches exactly the
values equal to its pattern; with case_sensitive = false it matches
exactly the values equal under ASCII-only case folding, so non-ASCII
characters are still compared exactly: "FOO" matches "foo"
case-insensitively but "É" does not match "é". -/
theorem exactMatch_characterisation :
    (∀ (p v : String) (sm : StringMatcher),
      StringMatcher.Create .EXACT p true = .ok sm → (sm.Match v = true ↔ v = p)) ∧
    (∀ (p v : String) (sm : StringMatcher),
      StringMatcher.Create .EXACT p false = .ok sm →
        (sm.Match v = true ↔ lowerList v.data = lowerList p.data)) ∧
    (∀ sm : StringMatcher,
      StringMatcher.Create .EXACT "FOO" false = .ok sm → sm.Match "foo" = true) ∧
    (∀ sm : StringMatcher,
      StringMatcher.Create .EXACT "É" false = .ok sm → sm.Match "é" = false) := by
  refine ⟨?_, ?_, ?_, ?_⟩
  · intro p v sm hc
    injection hc with hc
    subst hc
    show (v == p) = true ↔ v = p
    exact beq_iff_eq
  · intro p v sm hc
    injection hc with hc
    subst hc
    show (lowerList v.data == lowerList p.data) = true ↔
      lowerList v.data = lowerList p.data
    exact beq_iff_eq
  · intro sm hc
    injection hc with hc
    subst hc
    decide
  · intro sm hc
    injection hc with hc
    subst hc
    decide

/-- C7: every successfully constructed Pattern-kind StringMatcher — for
any pattern and either case flag — matches a value exactly when the
entire value is in the language of its compiled expression, anchored at
both ends; in particular the matcher for "a+b" matches "aab" but not
"xaabx", even though "aab" occurs in "xaabx" as a substring. -/
theorem regexFullMatch_anchored :
    (∀ (p : String) (cs : Bool) (sm : StringMatcher),
      StringMatcher.Create .SAFE_REGEX p cs = .ok sm →
      ∀ v : String, sm.Match v = true ↔ v.data ∈ sm.regex_matcher_.compiled.matches') ∧
    (∀ sm : StringMatcher, StringMatcher.Create .SAFE_REGEX "a+b" true = .ok sm →
      sm.Match "aab" = true ∧ sm.Match "xaabx" = false) ∧
    containsList "xaabx".data "aab".data = true := by
  refine ⟨?_, ?_, by decide⟩
  · intro p cs sm h v
    unfold StringMatcher.Create at h
    rw [if_pos rfl] at h
    cases hc : compileRegex cs p with
    | none =>
      rw [hc] at h
      cases h
    | some r =>
      rw [hc] at h
      injection h with h
      subst h
      exact RegularExpression.rmatch_iff_matches' r v.data
  · intro sm h
    have hcmp : compileRegex true "a+b" = some aPlusB := rfl
    unfold StringMatcher.Create at h
    rw [if_pos rfl, hcmp] at h
    injection h with h
    subst h
    exact ⟨by decide, by decide⟩

/-- C8: matchers equal under operator== print identical canonical
strings, and constructing twice with identical arguments yields instances
equal under operator== (which is structural, comparing Pattern payloads
by source-pattern text). -/
theorem equality_determines_canonical_form :
    (∀ a b : StringMatcher, a.equals b = true → a.ToString = b.ToString) ∧
    (∀ a b : HeaderMatcher, a.equals b = true → a.ToString = b.ToString) ∧
    (∀ (t : StringMatcherType) (p : String) (cs : Bool) (m1 m2 : StringMatcher),
      StringMatcher.Create t p cs = .ok m1 → StringMatcher.Create t p cs = .ok m2 →
        m1.equals m2 = true) ∧
    (∀ (n : String) (t : HeaderMatcherType) (p : String) (rs re : Int) (pm im : Bool)
        (m1 m2 : HeaderMatcher),
      HeaderMatcher.Create n t p rs re pm im = .ok m1 →
        HeaderMatcher.Create n t p rs re pm im = .ok m2 → m1.equals m2 = true) := by
  refine ⟨fun a b h => smEquals_toString h,
          fun a b h => hmEquals_toString h, ?_, ?_⟩
  · intro t p cs m1 m2 h1 h2
    rw [h1] at h2
    injection h2 with h2
    subst h2
    exact smEquals_refl m1
  · intro n t p rs re pm im m1 m2 h1 h2
    rw [h1] at h2
    injection h2 with h2
    subst h2
    exact hmEquals_refl m1

/-- C2 counterexample: the value " 15" is not a base-10 signed integer
literal occupying the entire string, yet the Range matcher [10, 20)
matches it, because the underlying conversion trims ASCII whitespace
before parsing. -/
theorem rangeMatch_counterexample :
    ∃ m : HeaderMatcher,
      HeaderMatcher.Create "age" .RANGE "" 10 20 false false = .ok m ∧
      claimedStrictParse " 15" = none ∧
      m.Match (some " 15") = true :=
  ⟨⟨"age", .RANGE, default, 10, 20, false, false⟩, rfl, rfl, rfl⟩

/-- C2 (amended): for a Range matcher the overall result is the base
result XOR invert_match; the base result on a present value is true
exactly when the value parses to some integer i with range_start <= i <
range_end (half-open); and the parse accepts exactly the strings that,
after trimming ASCII whitespace from both ends, consist entirely of an
optional sign followed by decimal digits denoting a signed 64-bit
value. -/
theorem rangeMatch_characterisation (m : HeaderMatcher)
    (h : m.type_ = HeaderMatcherType.RANGE) (v : String) :
    m.Match (some v) = (m.MatchBase (some v) != m.invert_match_) ∧
    (m.MatchBase (some v) = true ↔
      ∃ i : Int, simpleAtoi v = some i ∧ m.range_start_ ≤ i ∧ i < m.range_end_) ∧
    (∀ i : Int, simpleAtoi v = some i ↔ signedDecimalRep v i) := by
  obtain ⟨n, t, sm, rs, re, pm, im⟩ := m
  have ht : t = HeaderMatcherType.RANGE := h
  subst ht
  refine ⟨rfl, ?_, fun i => simpleAtoi_eq_some v i⟩
  show (match simpleAtoi v with
        | some i => decide (i ≥ rs) && decide (i < re)
        | none => false) = true ↔
    ∃ i : Int, simpleAtoi v = some i ∧ rs ≤ i ∧ i < re
  cases hsa : simpleAtoi v with
  | none => simp
  | some i => simp [ge_iff_le]

/-- Witness for C2 (amended) at the Range matcher [10, 20) and value
"15". -/
theorem rangeMatch_characterisation_witness :
    (HeaderMatcher.Match ⟨"age", .RANGE, default, 10, 20, false, false⟩ (some "15") =
      (HeaderMatcher.MatchBase ⟨"age", .RANGE, default, 10, 20, false, false⟩
        (some "15") != false)) ∧
    (HeaderMatcher.MatchBase ⟨"age", .RANGE, default, 10, 20, false, false⟩
        (some "15") = true ↔
      ∃ i : Int, simpleAtoi "15" = some i ∧ (10 : Int) ≤ i ∧ i < (20 : Int)) ∧
    (∀ i : Int, simpleAtoi "15" = some i ↔ signedDecimalRep "15" i) :=
  rangeMatch_characterisation ⟨"age", .RANGE, default, 10, 20, false, false⟩ rfl "15"

/-- C3: for the five shared kinds, HeaderMatcher::Create delegates to
StringMatcher::Create with case_sensitive = true — so header matching for
these kinds is always case-sensitive — and a creation error is propagated
verbatim, while success embeds the created StringMatcher. -/
theorem sharedKind_delegation (name p : String) (rs re : Int) (pm im : Bool)
    (t : HeaderMatcherType) (h : t.isShared = true) :
    (∀ e, StringMatcher.Create t.toStringMatcherType p true = .error e →
      HeaderMatcher.Create name t p rs re pm im = .error e) ∧
    (∀ sm, StringMatcher.Create t.toStringMatcherType p true = .ok sm →
      sm.case_sensitive_ = true ∧
      HeaderMatcher.Create name t p rs re pm im = .ok ⟨name, t, sm, 0, 0, false, im⟩) := by
  constructor
  · intro e he
    unfold HeaderMatcher.Create
    rw [if_pos h, he]
  · intro sm hsm
    refine ⟨StringMatcher.create_caseSensitive hsm, ?_⟩
    unfold HeaderMatcher.Create
    rw [if_pos h, hsm]

/-- Witness for C3 at the Pattern kind with the invalid pattern "+". -/
theorem sharedKind_delegation_witness :
    (∀ e, StringMatcher.Create HeaderMatcherType.SAFE_REGEX.toStringMatcherType "+" true =
        .error e →
      HeaderMatcher.Create "x" .SAFE_REGEX "+" 0 0 false false = .error e) ∧
    (∀ sm, StringMatcher.Create HeaderMatcherType.SAFE_REGEX.toStringMatcherType "+" true =
        .ok sm →
      sm.case_sensitive_ = true ∧
      HeaderMatcher.Create "x" .SAFE_REGEX "+" 0 0 false false =
        .ok ⟨"x", .SAFE_REGEX, sm, 0, 0, false, false⟩) :=
  sharedKind_delegation "x" "+" 0 0 false false .SAFE_REGEX rfl

end Matchers
